import Mathlib

/-
  Verification of the taskberry backend core: a shallow embedding of the
  hierarchy resolver (isUserInManagerTeam, getAssignableUsers), the task
  status/update routes, the user-approval routes and the auth flows, with
  theorems settling the spec claims.

  Conventions of the embedding:
  * Mongo ObjectIds are Nat; `a.toString() === b.toString()` becomes `a = b`.
  * Dates are Nat timestamps; `new Date()` is an explicit `now` argument.
  * A document store read is `Db := Nat -> Except StoreErr (Option User)`;
    `okDb users` is the healthy store backed by a list, `failDb` a store
    whose reads throw.  A `try/catch` around store reads becomes a match on
    the `Except` value.
  * `select(-password)` becomes `stripPassword` (password field to none).
  * Mongoose strips keys whose value is `undefined` from a `$set` document,
    so assigning `undefined` inside an update object is a no-op unless the
    route also issues a `$unset` for the key; the route embeddings below
    reflect this.
-/

namespace Taskberry

/-- User roles, from the User schema enum. -/
inductive Role where
  | super_admin
  | manager
  | supervisor
  | member
  | pending
deriving DecidableEq, Repr

/-- User account status, from the User schema enum. -/
inductive UStatus where
  | active
  | pending_approval
  | suspended
deriving DecidableEq, Repr

/-- Task status values, from the Task schema enum
    (not-started / in-progress / completed). -/
inductive TStatus where
  | notStarted
  | inProgress
  | completed
deriving DecidableEq, Repr

/-- Task priority values, from the Task schema enum. -/
inductive Priority where
  | low
  | medium
  | high
  | urgent
deriving DecidableEq, Repr

/-- A User document.  `password` is an Option so that the projection of
    `select(-password)` is representable (none = field stripped). -/
structure User where
  id : Nat
  name : String := ""
  email : String := ""
  password : Option String := none
  role : Role
  status : UStatus
  supervisorId : Option Nat := none
  managerId : Option Nat := none
  approvedBy : Option Nat := none
  approvedAt : Option Nat := none
deriving DecidableEq, Repr

/-- A Task document. -/
structure Task where
  id : Nat
  title : String
  description : String := ""
  assigneeId : Nat
  createdBy : Nat
  assignedDate : Nat := 0
  targetDate : Nat
  status : TStatus := TStatus.notStarted
  priority : Priority := Priority.medium
  tags : List String := []
  lastUpdated : Nat := 0
  completedDate : Option Nat := none
deriving DecidableEq, Repr

/-- `User.findById(uid)` over a list-backed store. -/
def findById (users : List User) (uid : Nat) : Option User :=
  users.find? (fun u => u.id = uid)

/-- `User.findOne({ email })` over a list-backed store. -/
def findByEmail (users : List User) (e : String) : Option User :=
  users.find? (fun u => u.email = e)

/-- The `select(-password)` projection. -/
def stripPassword (u : User) : User := { u with password := none }

/-- The read `User.find with status active` followed by `select(-password)`. -/
def activeUsers (users : List User) : List User :=
  (users.filter (fun u => u.status = UStatus.active)).map stripPassword

/-- Store-layer failure (timeout, connection loss, ...). -/
inductive StoreErr where
  | unavailable
deriving DecidableEq, Repr

/-- A findById-style store read that may fail. -/
abbrev Db := Nat → Except StoreErr (Option User)

/-- The healthy store backed by a user list. -/
def okDb (users : List User) : Db := fun uid => Except.ok (findById users uid)

/-- A store whose every read fails. -/
def failDb : Db := fun _ => Except.error StoreErr.unavailable

/-- The body of the `try` block of `isUserInManagerTeam` in
    src/routes/tasks.js (both copies are identical): look up the user,
    return false if absent; check the direct managerId link, then the
    member-under-supervisor two-hop link (a second store read), then the
    supervisor-under-manager link. -/
def isUserInManagerTeamBody (db : Db) (userId managerId : Nat) :
    Except StoreErr Bool :=
  match db userId with
  | Except.error e => Except.error e
  | Except.ok none => Except.ok false
  | Except.ok (some user) =>
    if user.managerId = some managerId then Except.ok true
    else
      match user.role, user.supervisorId with
      | Role.member, some sid =>
        (match db sid with
         | Except.error e => Except.error e
         | Except.ok (some sup) =>
           if sup.managerId = some managerId then Except.ok true
           else Except.ok (decide (user.role = Role.supervisor ∧
                                   user.managerId = some managerId))
         | Except.ok none =>
           Except.ok (decide (user.role = Role.supervisor ∧
                              user.managerId = some managerId)))
      | _, _ =>
        Except.ok (decide (user.role = Role.supervisor ∧
                           user.managerId = some managerId))

/-- `isUserInManagerTeam` with its catch branch: a store failure is caught
    and converted to `false` (src/routes/tasks.js lines 32-35). -/
def isUserInManagerTeamDb (db : Db) (userId managerId : Nat) : Bool :=
  match isUserInManagerTeamBody db userId managerId with
  | Except.ok b => b
  | Except.error _ => false

/-- `isUserInManagerTeam` against a healthy list-backed store. -/
def isUserInManagerTeam (users : List User) (userId managerId : Nat) : Bool :=
  isUserInManagerTeamDb (okDb users) userId managerId

/-- The member-under-supervisor lookup inside the manager branch of
    `getAssignableUsers`: `allUsers.find(s => s._id === user.supervisorId)`
    searches the already-fetched ACTIVE user list. -/
def memberUnderSup (allUsers : List User) (cu u : User) : Bool :=
  match u.supervisorId with
  | some sid =>
    (match findById allUsers sid with
     | some sup => decide (sup.managerId = some cu.id)
     | none => false)
  | none => false

/-- The filter predicate of the manager branch of `getAssignableUsers`
    (src/routes/tasks.js lines 56-83): exclude self; include supervisors
    and members reporting to the manager, members under the supervisors
    of the manager, and every other manager. -/
def managerFilter (allUsers : List User) (cu u : User) : Bool :=
  if u.id = cu.id then false
  else if u.role = Role.supervisor ∧ u.managerId = some cu.id then true
  else if u.role = Role.member ∧ u.managerId = some cu.id then true
  else if u.role = Role.member ∧ memberUnderSup allUsers cu u = true then true
  else if u.role = Role.manager then true
  else false

/-- `getAssignableUsers(currentUser)` (src/routes/tasks.js lines 39-116),
    parameterised by the outcome of the
    active-users store read (find status active, select minus password).  The catch
    branch converts a store failure into the empty list (lines 112-115).
    The member branch returns `[currentUser]` as passed in, unfiltered. -/
def getAssignableUsersDb (fetched : Except StoreErr (List User)) (cu : User) :
    List User :=
  match fetched with
  | Except.error _ => []
  | Except.ok allUsers =>
    match cu.role with
    | Role.super_admin => allUsers.filter (fun u => u.id ≠ cu.id)
    | Role.manager => allUsers.filter (fun u => managerFilter allUsers cu u)
    | Role.supervisor => allUsers.filter (fun u =>
        u.id = cu.id ∨ (u.role = Role.member ∧ u.supervisorId = some cu.id))
    | Role.member => [cu]
    | Role.pending => []

/-- `getAssignableUsers` against a healthy list-backed store. -/
def getAssignableUsers (users : List User) (cu : User) : List User :=
  getAssignableUsersDb (Except.ok (activeUsers users)) cu

/-- The GET /assignable-users route (src/routes/tasks.js lines 121-134):
    fetches the current user WITHOUT field exclusion (no select), 404s if
    absent, otherwise returns `getAssignableUsers(currentUser)`. -/
def listAssignableUsers (users : List User) (actorId : Nat) :
    Option (List User) :=
  match findById users actorId with
  | none => none
  | some cu => some (getAssignableUsers users cu)

/-- The update applied by the first PUT /:id/status route
    (src/routes/tasks.js lines 481-488): `$set`s status and lastUpdated and
    spreads `{ completedDate: now }` in whenever the submitted status is
    completed; it contains no clearing logic, so completedDate is otherwise
    left as stored. -/
def putStatusV1Apply (t : Task) (s : TStatus) (now : Nat) : Task :=
  { t with
    status := s
    lastUpdated := now
    completedDate := if s = TStatus.completed then some now else t.completedDate }

/-- The update applied by the second PUT /:id/status route
    (src/routes/tasks.js lines 1310-1327): sets completedDate to now on a
    transition into completed, `$unset`s it on a transition out of
    completed, and leaves it untouched otherwise. -/
def putStatusV2Apply (t : Task) (s : TStatus) (now : Nat) : Task :=
  if s = TStatus.completed ∧ t.status ≠ TStatus.completed then
    { t with status := s, lastUpdated := now, completedDate := some now }
  else if s ≠ TStatus.completed ∧ t.status = TStatus.completed then
    { t with status := s, lastUpdated := now, completedDate := none }
  else
    { t with status := s, lastUpdated := now }

/-- Fields of a PUT /:id request body; none = field absent. -/
structure UpdateTaskReq where
  title : Option String := none
  description : Option String := none
  assigneeId : Option Nat := none
  targetDate : Option Nat := none
  status : Option TStatus := none
  priority : Option Priority := none
  tags : Option (List String) := none
deriving DecidableEq, Repr

/-- The update applied by the first PUT /:id route
    (src/routes/tasks.js lines 406-427).  Field guards follow the JS
    truthiness checks (`if (title)` skips an empty string, `if (description
    !== undefined)` is a presence check).  Completion logic (lines 416-421):
    a transition into completed sets completedDate to now; the
    `updateFields.completedDate = undefined` branch is dropped by mongoose
    when the `$set` document is cast, so it leaves the stored value. -/
def putTaskV1Apply (t : Task) (r : UpdateTaskReq) (now : Nat) : Task :=
  let t1 := match r.title with
    | some s => if s ≠ "" then { t with title := s } else t
    | none => t
  let t2 := match r.description with
    | some d => { t1 with description := d }
    | none => t1
  let t3 := match r.assigneeId with
    | some a => { t2 with assigneeId := a }
    | none => t2
  let t4 := match r.targetDate with
    | some d => { t3 with targetDate := d }
    | none => t3
  let t5 := match r.status with
    | some s => { t4 with status := s }
    | none => t4
  let t6 := match r.priority with
    | some p => { t5 with priority := p }
    | none => t5
  let t7 := match r.tags with
    | some tg => { t6 with tags := tg }
    | none => t6
  { t7 with
    lastUpdated := now
    completedDate :=
      if r.status = some TStatus.completed ∧ t.status ≠ TStatus.completed then
        some now
      else t.completedDate }

/-- The update applied by the second PUT /:id route
    (src/routes/tasks.js lines 1128-1201).  Returns none on the explicit
    validation failures (empty trimmed title).  The final update is
    `{ $set: updateFields, $unset: updateFields.completedDate === undefined
    ? { completedDate: 1 } : {} }` (line 1190): the `$unset` condition holds
    BOTH when the completion branch assigned `undefined` AND when the
    completedDate key was never added to updateFields, so every update that
    does not set completedDate removes it. -/
def putTaskV2Apply (t : Task) (r : UpdateTaskReq) (now : Nat) : Option Task :=
  match r.title with
  | some s =>
    if s.trim = "" then none
    else some (putTaskV2Core t r now)
  | none => some (putTaskV2Core t r now)
where
  putTaskV2Core (t : Task) (r : UpdateTaskReq) (now : Nat) : Task :=
    let t1 := match r.title with
      | some s => { t with title := s.trim }
      | none => t
    let t2 := match r.description with
      | some d => { t1 with description := d.trim }
      | none => t1
    let t3 := match r.assigneeId with
      | some a => { t2 with assigneeId := a }
      | none => t2
    let t4 := match r.targetDate with
      | some d => { t3 with targetDate := d }
      | none => t3
    let t5 := match r.status with
      | some s => { t4 with status := s }
      | none => t4
    let t6 := match r.priority with
      | some p => { t5 with priority := p }
      | none => t5
    let t7 := match r.tags with
      | some tg => { t6 with tags := tg }
      | none => t6
    { t7 with
      lastUpdated := now
      completedDate :=
        if r.status = some TStatus.completed ∧ t.status ≠ TStatus.completed then
          some now
        else none }

/-- Outcome of the PUT /:userId/approve routes. -/
inductive ApproveResult where
  | notFound
  | notPending
  | invalidRole
  | validationFailure (required : List String)
  | invalidSupervisorRef
  | invalidManagerRef
  | approved (u : User)
deriving DecidableEq, Repr

/-- The PUT /:userId/approve route of src/routes/users.js (lines 177-339):
    after the pending and role checks it builds the `$set` document with
    status active, the requested role, approvedBy/approvedAt, and copies
    supervisorId/managerId in ONLY when provided (no presence requirement
    and no referenced-role validation; a missing field leaves the stored
    value).  `role?` is none when the submitted role is not one of the
    four valid role strings. -/
def approveUserRoute (users : List User) (targetUserId : Nat)
    (roleReq : Option Role) (supReq mgrReq : Option Nat)
    (approverId now : Nat) : ApproveResult :=
  match findById users targetUserId with
  | none => ApproveResult.notFound
  | some u =>
    if ¬(u.status = UStatus.pending_approval ∧ u.role = Role.pending) then
      ApproveResult.notPending
    else
      match roleReq with
      | none => ApproveResult.invalidRole
      | some r =>
        if r = Role.pending then ApproveResult.invalidRole
        else
          ApproveResult.approved
            { u with
              status := UStatus.active
              role := r
              approvedBy := some approverId
              approvedAt := some now
              supervisorId := match supReq with
                | some sid => some sid
                | none => u.supervisorId
              managerId := match mgrReq with
                | some mid => some mid
                | none => u.managerId }

/-- The supervisor-reference validation block of the enhanced approve route
    (verify the referenced user exists and has role supervisor; none means
    the field was not provided and is explicitly nulled). -/
def approveCheckSupRef (users : List User) (supReq : Option Nat) :
    Except ApproveResult (Option Nat) :=
  match supReq with
  | some sid =>
    (match findById users sid with
     | some sup =>
       if sup.role = Role.supervisor then Except.ok (some sid)
       else Except.error ApproveResult.invalidSupervisorRef
     | none => Except.error ApproveResult.invalidSupervisorRef)
  | none => Except.ok none

/-- The manager-reference validation block of the enhanced approve route. -/
def approveCheckMgrRef (users : List User) (mgrReq : Option Nat) :
    Except ApproveResult (Option Nat) :=
  match mgrReq with
  | some mid =>
    (match findById users mid with
     | some mgr =>
       if mgr.role = Role.manager then Except.ok (some mid)
       else Except.error ApproveResult.invalidManagerRef
     | none => Except.error ApproveResult.invalidManagerRef)
  | none => Except.ok none

/-- The enhanced PUT /:userId/approve route (unnamed users-routes file,
    lines 229-429): additionally requires both supervisorId and managerId
    for role member and managerId for role supervisor (returning a
    validation failure listing the required fields), verifies that a
    provided supervisorId references a user with role supervisor and a
    provided managerId a user with role manager, and explicitly nulls the
    fields when not provided.  On every non-approved outcome the route
    returns before the store update, so the target stays unapproved. -/
def approveUserRouteEnhanced (users : List User) (targetUserId : Nat)
    (roleReq : Option Role) (supReq mgrReq : Option Nat)
    (approverId now : Nat) : ApproveResult :=
  match findById users targetUserId with
  | none => ApproveResult.notFound
  | some u =>
    if ¬(u.status = UStatus.pending_approval ∧ u.role = Role.pending) then
      ApproveResult.notPending
    else
      match roleReq with
      | none => ApproveResult.invalidRole
      | some r =>
        if r = Role.pending then ApproveResult.invalidRole
        else if r = Role.member ∧ (supReq = none ∨ mgrReq = none) then
          ApproveResult.validationFailure ["supervisorId", "managerId"]
        else if r = Role.supervisor ∧ mgrReq = none then
          ApproveResult.validationFailure ["managerId"]
        else
          match approveCheckSupRef users supReq with
          | Except.error e => e
          | Except.ok supField =>
            match approveCheckMgrRef users mgrReq with
            | Except.error e => e
            | Except.ok mgrField =>
              ApproveResult.approved
                { u with
                  status := UStatus.active
                  role := r
                  approvedBy := some approverId
                  approvedAt := some now
                  supervisorId := supField
                  managerId := mgrField }

/-- An HTTP response observable to the client: status code and message. -/
structure HttpResp where
  status : Nat
  message : String
deriving DecidableEq, Repr

/-- Outcome of POST /login: success carries the token payload for the
    found user (a 200), failure is the uniform 400 Invalid credentials. -/
inductive LoginResp where
  | success (u : User)
  | invalidCredentials
deriving DecidableEq, Repr

/-- `user.comparePassword(pw)`: bcrypt compare against the stored hash,
    modelled by an oracle; comparing against a stripped (absent) hash
    rejects. -/
def passwordMatches (checkPw : String → String → Bool) (pw : String)
    (stored : Option String) : Bool :=
  match stored with
  | some h => checkPw pw h
  | none => false

/-- POST /login (src/routes/auth.js lines 112-163, identical in the other
    auth-routes copies): 400 Invalid credentials when the email is unknown
    AND when the password does not match; otherwise a 200 with token. -/
def loginRoute (checkPw : String → String → Bool) (users : List User)
    (email pw : String) : LoginResp :=
  match findByEmail users email with
  | none => LoginResp.invalidCredentials
  | some u =>
    if passwordMatches checkPw pw u.password then LoginResp.success u
    else LoginResp.invalidCredentials

/-- POST /forgot-password (src/routes/auth.js lines 270-321).
    `emailSendOk` is the outcome of the nodemailer send for an existing
    account.  Note the two 200 messages differ between the account-exists
    and no-account cases. -/
def forgotPasswordRoute (users : List User) (email : Option String)
    (emailSendOk : Bool) : HttpResp :=
  match email with
  | none => { status := 400, message := "Email is required" }
  | some e =>
    if e = "" then { status := 400, message := "Email is required" }
    else
      match findByEmail users e with
      | none =>
        { status := 200
          message := "If an account with this email exists, we have sent password reset instructions." }
      | some _ =>
        if emailSendOk then
          { status := 200
            message := "Password reset instructions have been sent to your email." }
        else
          { status := 500
            message := "Failed to send reset email. Please try again later." }

/-- Spec-side description (for the refinement comparison of claim C2) of
    the manager branch of assignableUsers, amended with the one correction
    the code forces: the indirect-report lookup resolves the supervisor
    reference inside the ACTIVE user list, so a member under a non-active
    supervisor is not included. -/
def assignableByManagerAmended (users : List User) (m u : User) : Prop :=
  u ∈ activeUsers users ∧ u.id ≠ m.id ∧
    ((u.role = Role.supervisor ∧ u.managerId = some m.id) ∨
     (u.role = Role.member ∧ u.managerId = some m.id) ∨
     (u.role = Role.member ∧ ∃ sid sup, u.supervisorId = some sid ∧
        findById (activeUsers users) sid = some sup ∧
        sup.managerId = some m.id) ∨
     u.role = Role.manager)

/- Concrete documents used by counterexamples and witnesses. -/

/-- An active manager. -/
def mgrOne : User :=
  { id := 1, name := "M", role := Role.manager, status := UStatus.active }

/-- A suspended supervisor reporting to `mgrOne`. -/
def suspendedSup : User :=
  { id := 2, name := "S", role := Role.supervisor,
    status := UStatus.suspended, managerId := some 1 }

/-- An active member whose only hierarchy link is `suspendedSup`. -/
def orphanMember : User :=
  { id := 3, name := "X", role := Role.member, status := UStatus.active,
    supervisorId := some 2 }

/-- Store with a manager, a suspended supervisor under them, and an active
    member under that supervisor. -/
def cexTeam : List User := [mgrOne, suspendedSup, orphanMember]

/-- A suspended member (used as an actor). -/
def suspendedMember : User :=
  { id := 7, name := "Z", role := Role.member, status := UStatus.suspended,
    password := some "hash7" }

/-- An active manager used by witnesses. -/
def witManager : User :=
  { id := 10, name := "WM", role := Role.manager, status := UStatus.active }

/-- An active supervisor under `witManager`. -/
def witSup : User :=
  { id := 11, name := "WS", role := Role.supervisor,
    status := UStatus.active, managerId := some 10, password := some "h11" }

/-- Store with `witManager` and `witSup`. -/
def witStore : List User := [witManager, witSup]

/-- An active member (with a stored password hash) under `witSup` and
    `witManager`. -/
def memActor : User :=
  { id := 9, name := "Mem", email := "me@x.y", password := some "hash9",
    role := Role.member, status := UStatus.active, supervisorId := some 11,
    managerId := some 10 }

/-- Store containing `memActor` and their hierarchy. -/
def memStore : List User := [witManager, witSup, memActor]

/-- A completed task whose completedDate is 5. -/
def doneTask : Task :=
  { id := 1, title := "write report", assigneeId := 2, createdBy := 3,
    targetDate := 100, status := TStatus.completed, completedDate := some 5,
    lastUpdated := 5 }

/-- An in-progress task with no completedDate. -/
def freshTask : Task :=
  { id := 2, title := "draft", assigneeId := 2, createdBy := 3,
    targetDate := 100, status := TStatus.inProgress }

/-- A PUT /:id body that only edits the priority. -/
def priorityOnlyReq : UpdateTaskReq := { priority := some Priority.high }

/-- A pending user awaiting approval. -/
def pendingU : User :=
  { id := 4, name := "P", email := "p@x.y", password := some "hp",
    role := Role.pending, status := UStatus.pending_approval }

/-- Store containing only the pending user. -/
def approveStore : List User := [pendingU]

/-- An active member account used by the auth flows. -/
def authUser : User :=
  { id := 8, name := "A", email := "a@b.c", password := some "storedhash",
    role := Role.member, status := UStatus.active }

/- ------------------------------------------------------------------ -/
/- Theorems                                                            -/
/- ------------------------------------------------------------------ -/

/-- Claim C1: for every pair of ids, isInManagerTeam(userId, managerId) is
    true exactly when the looked-up user exists and either (a) the user has
    managerId equal to the argument, or (b) the user has role member and a
    supervisorId whose referenced supervisor has that managerId, or (c) the
    user has role supervisor and that managerId; it is false when no user
    with the id exists. -/
theorem isInManagerTeam_iff (users : List User) (uid mid : Nat) :
    isUserInManagerTeam users uid mid = true ↔
    ∃ u, findById users uid = some u ∧
      (u.managerId = some mid ∨
       (u.role = Role.member ∧ ∃ sid sup, u.supervisorId = some sid ∧
          findById users sid = some sup ∧ sup.managerId = some mid) ∨
       (u.role = Role.supervisor ∧ u.managerId = some mid)) := by
  unfold isUserInManagerTeam isUserInManagerTeamDb isUserInManagerTeamBody okDb
  cases hfind : findById users uid with
  | none => simp
  | some u =>
    simp only [Option.some.injEq]
    by_cases hm : u.managerId = some mid
    · simp [hm]
    · simp only [if_neg hm]
      cases hrole : u.role with
      | member =>
        cases hsup : u.supervisorId with
        | none => simp [hm, hrole, hsup]
        | some sid =>
          cases hfs : findById users sid with
          | none => simp [hm, hrole, hsup, hfs]
          | some sup =>
            by_cases hsm : sup.managerId = some mid
            · simp [hm, hrole, hsup, hfs, hsm]
            · simp [hm, hrole, hsup, hfs, hsm]
      | super_admin => simp [hm, hrole]
      | manager => simp [hm, hrole]
      | supervisor => simp [hm, hrole]
      | pending => simp [hm, hrole]

/-- Helper: the two-hop lookup of the manager filter, as an existential. -/
lemma memberUnderSup_iff (A : List User) (cu u : User) :
    memberUnderSup A cu u = true ↔
      ∃ sid sup, u.supervisorId = some sid ∧ findById A sid = some sup ∧
        sup.managerId = some cu.id := by
  unfold memberUnderSup
  cases hs : u.supervisorId with
  | none => simp
  | some sid =>
    cases hf : findById A sid with
    | none => simp [hf]
    | some sup => simp [hf]

/-- Helper: the manager filter predicate as a disjunction. -/
lemma managerFilter_iff (A : List User) (cu u : User) :
    managerFilter A cu u = true ↔
      (u.id ≠ cu.id ∧
        ((u.role = Role.supervisor ∧ u.managerId = some cu.id) ∨
         (u.role = Role.member ∧ u.managerId = some cu.id) ∨
         (u.role = Role.member ∧ ∃ sid sup, u.supervisorId = some sid ∧
            findById A sid = some sup ∧ sup.managerId = some cu.id) ∨
         u.role = Role.manager)) := by
  unfold managerFilter
  split_ifs with h1 h2 h3 h4 h5 <;> simp_all [memberUnderSup_iff]

/-- Claim C2 counterexample: the claim includes, among the assignable users
    of a manager M, every active member whose supervisorId references a
    supervisor whose managerId is M; but the code resolves the supervisor
    reference inside the ACTIVE user list only, so with a suspended
    supervisor the member is dropped and the computed set is empty. -/
theorem assignable_manager_cex :
    mgrOne.role = Role.manager ∧
    orphanMember.role = Role.member ∧ orphanMember.status = UStatus.active ∧
    orphanMember.supervisorId = some suspendedSup.id ∧
    suspendedSup.role = Role.supervisor ∧
    suspendedSup.managerId = some mgrOne.id ∧
    getAssignableUsers cexTeam mgrOne = [] := by decide

/-- Claim C2 (amended): for a manager actor the computed assignable set is
    characterised by `assignableByManagerAmended`: active, not the actor,
    and supervisor-under-M or direct member or member under an ACTIVE
    supervisor of M or any other manager. -/
theorem assignable_manager_spec (users : List User) (m : User)
    (hrole : m.role = Role.manager) (u : User) :
    u ∈ getAssignableUsers users m ↔ assignableByManagerAmended users m u := by
  unfold getAssignableUsers getAssignableUsersDb assignableByManagerAmended
  rw [hrole]
  simp [List.mem_filter, managerFilter_iff, and_assoc]

/-- Claim C2 witness: the amended characterisation applied to a concrete
    manager and an active supervisor under them. -/
theorem assignable_manager_spec_witness :
    witManager.role = Role.manager ∧
    (stripPassword witSup ∈ getAssignableUsers witStore witManager ↔
      assignableByManagerAmended witStore witManager (stripPassword witSup)) :=
  ⟨rfl, assignable_manager_spec witStore witManager rfl (stripPassword witSup)⟩

/-- Helper: every element of the active-users read is active and has its
    password stripped. -/
lemma mem_activeUsers (users : List User) {u : User}
    (h : u ∈ activeUsers users) :
    u.status = UStatus.active ∧ u.password = none := by
  unfold activeUsers at h
  rcases List.mem_map.mp h with ⟨v, hv, rfl⟩
  have hst := (List.mem_filter.mp hv).2
  simp only [decide_eq_true_eq] at hst
  exact ⟨hst, rfl⟩

/-- Claim C3 counterexample: a suspended member actor receives itself as an
    assignable user, so assignableUsers can contain a non-active user. -/
theorem assignable_active_cex :
    suspendedMember ∈ getAssignableUsers [suspendedMember] suspendedMember ∧
    suspendedMember.status ≠ UStatus.active := by decide

/-- Claim C3 (amended): for every actor whose role is not member, every
    user returned by assignableUsers is active; a member actor instead
    receives exactly its own record, whatever its own status is. -/
theorem assignable_active_amended (users : List User) (actor : User) :
    (actor.role ≠ Role.member →
        ∀ u ∈ getAssignableUsers users actor, u.status = UStatus.active) ∧
    (actor.role = Role.member → getAssignableUsers users actor = [actor]) := by
  constructor
  · intro hne u hu
    unfold getAssignableUsers getAssignableUsersDb at hu
    cases hrole : actor.role with
    | member => exact absurd hrole hne
    | super_admin =>
      rw [hrole] at hu
      exact (mem_activeUsers users (List.mem_filter.mp hu).1).1
    | manager =>
      rw [hrole] at hu
      exact (mem_activeUsers users (List.mem_filter.mp hu).1).1
    | supervisor =>
      rw [hrole] at hu
      exact (mem_activeUsers users (List.mem_filter.mp hu).1).1
    | pending =>
      rw [hrole] at hu
      simp at hu
  · intro hm
    unfold getAssignableUsers getAssignableUsersDb
    rw [hm]

/-- Claim C3 witness: a manager actor with an active supervisor under
    them; the returned supervisor record is active. -/
theorem assignable_active_amended_witness :
    witManager.role ≠ Role.member ∧
    (stripPassword witSup).status = UStatus.active :=
  ⟨by decide, (assignable_active_amended witStore witManager).1 (by decide)
      (stripPassword witSup) (by decide)⟩

/-- Claim C4 counterexample: the first PUT /:id/status route never clears
    completedDate: moving a completed task (completedDate 5) to in-progress
    leaves completedDate at 5 instead of making it absent. -/
theorem status_route_clear_cex :
    doneTask.status = TStatus.completed ∧
    (putStatusV1Apply doneTask TStatus.inProgress 9).status =
      TStatus.inProgress ∧
    (putStatusV1Apply doneTask TStatus.inProgress 9).completedDate =
      some 5 := by decide

/-- Claim C4 (amended, proved of the second PUT /:id/status route, which
    the first registered route version does not implement): the status is
    written, and completedDate becomes now exactly on a transition into
    completed, is removed exactly on a transition out of completed, and is
    untouched otherwise; the set/clear is part of the same single update
    document as the status write. -/
theorem status_route_completedDate_v2 (t : Task) (s : TStatus) (now : Nat) :
    (putStatusV2Apply t s now).status = s ∧
    (putStatusV2Apply t s now).completedDate =
      (if s = TStatus.completed then
         (if t.status = TStatus.completed then t.completedDate else some now)
       else if t.status = TStatus.completed then none
       else t.completedDate) := by
  unfold putStatusV2Apply
  cases s <;> cases ht : t.status <;> simp [ht]

/-- Claim C5 counterexample: on the first PUT /:id/status route a second
    update with status completed refreshes completedDate (5 becomes 9). -/
theorem status_route_idem_cex :
    (putStatusV1Apply freshTask TStatus.completed 5).completedDate =
      some 5 ∧
    (putStatusV1Apply (putStatusV1Apply freshTask TStatus.completed 5)
        TStatus.completed 9).completedDate = some 9 := by decide

/-- Claim C5 (amended, proved of the second PUT /:id/status route): a
    second status update with the same value leaves completedDate exactly
    as the first left it, whatever the current time of the second call. -/
theorem status_route_idem_v2 (t : Task) (s : TStatus) (n1 n2 : Nat) :
    (putStatusV2Apply (putStatusV2Apply t s n1) s n2).completedDate =
      (putStatusV2Apply t s n1).completedDate := by
  unfold putStatusV2Apply
  cases s <;> cases ht : t.status <;> simp [ht]

/-- Claim C6 (code bug): on a completed task (completedDate 5) an update
    that only edits the priority (status absent) should leave completedDate
    unchanged, and does so in the first PUT /:id route; but the second
    PUT /:id route issues an unset of completedDate whenever the update
    document did not assign it, so the priority-only edit clears the
    field. -/
theorem update_route_frame_bug :
    doneTask.status = TStatus.completed ∧
    doneTask.completedDate = some 5 ∧
    priorityOnlyReq.status = none ∧
    (putTaskV1Apply doneTask priorityOnlyReq 9).completedDate = some 5 ∧
    (putTaskV2Apply doneTask priorityOnlyReq 9).map Task.completedDate =
      some none := by decide

/-- Claim C7 counterexample: the approve route of src/routes/users.js
    performs no hierarchy validation: approving a pending user with role
    member and neither supervisorId nor managerId supplied succeeds (the
    user becomes active with both fields left unset) instead of returning a
    validation error listing the missing fields. -/
theorem approve_member_cex :
    approveUserRoute approveStore 4 (some Role.member) none none 1 99 =
      ApproveResult.approved
        { pendingU with
          status := UStatus.active, role := Role.member,
          approvedBy := some 1, approvedAt := some 99 } := by decide

/-- Claim C7 (amended, proved of the enhanced approve route in the unnamed
    users-routes file): approving a pending user with role member and no
    supervisorId or managerId yields a validation failure listing both
    fields; role supervisor without managerId yields one listing managerId;
    and a member approval succeeds only when the supplied supervisorId and
    managerId reference users with role supervisor and manager
    respectively.  On every failure the route returns before the store
    update, so the target stays unapproved. -/
theorem approve_enhanced_validation (users : List User) (tid : Nat)
    (u : User) (approverId now : Nat)
    (h1 : findById users tid = some u)
    (h2 : u.status = UStatus.pending_approval)
    (h3 : u.role = Role.pending) :
    approveUserRouteEnhanced users tid (some Role.member) none none
        approverId now =
      ApproveResult.validationFailure ["supervisorId", "managerId"] ∧
    approveUserRouteEnhanced users tid (some Role.supervisor) none none
        approverId now =
      ApproveResult.validationFailure ["managerId"] ∧
    (∀ sid mid w,
        approveUserRouteEnhanced users tid (some Role.member) (some sid)
            (some mid) approverId now = ApproveResult.approved w →
        (∃ sup, findById users sid = some sup ∧
            sup.role = Role.supervisor) ∧
        (∃ mgr, findById users mid = some mgr ∧
            mgr.role = Role.manager)) := by
  refine ⟨?_, ?_, ?_⟩
  · simp [approveUserRouteEnhanced, h1, h2, h3]
  · simp [approveUserRouteEnhanced, h1, h2, h3]
  · intro sid mid w happ
    simp only [approveUserRouteEnhanced, h1, h2, h3] at happ
    cases hs : findById users sid with
    | none => simp [approveCheckSupRef, hs, h2, h3] at happ
    | some sup =>
      by_cases hsr : sup.role = Role.supervisor
      · cases hm : findById users mid with
        | none =>
          simp [approveCheckSupRef, approveCheckMgrRef, hs, hm, hsr, h2,
            h3] at happ
        | some mgr =>
          by_cases hmr : mgr.role = Role.manager
          · exact ⟨⟨sup, rfl, hsr⟩, ⟨mgr, rfl, hmr⟩⟩
          · simp [approveCheckSupRef, approveCheckMgrRef, hs, hm, hsr, hmr,
              h2, h3] at happ
      · simp [approveCheckSupRef, hs, hsr, h2, h3] at happ

/-- Claim C7 witness: the enhanced route rejects a concrete pending member
    approval that supplies neither hierarchy field. -/
theorem approve_enhanced_validation_witness :
    findById approveStore 4 = some pendingU ∧
    pendingU.status = UStatus.pending_approval ∧
    pendingU.role = Role.pending ∧
    approveUserRouteEnhanced approveStore 4 (some Role.member) none none
        1 99 =
      ApproveResult.validationFailure ["supervisorId", "managerId"] :=
  ⟨by decide, by decide, by decide,
    (approve_enhanced_validation approveStore 4 pendingU 1 99 (by decide)
        (by decide) (by decide)).1⟩

/-- Claim C8 counterexample: a failing store read inside the authorization
    helpers does not propagate: isUserInManagerTeam returns false (a deny)
    and getAssignableUsers returns the empty result set. -/
theorem store_failure_cex :
    isUserInManagerTeamDb failDb 1 2 = false ∧
    getAssignableUsersDb (Except.error StoreErr.unavailable) mgrOne =
      [] := by decide

/-- Claim C8 (amended): the catch branches convert every store failure
    inside the authorization helpers into a benign value: the team check
    yields false and the assignable computation the empty list, for every
    input; no store error reaches the caller from these helpers. -/
theorem store_failure_amended (uid mid : Nat) (cu : User) :
    isUserInManagerTeamDb failDb uid mid = false ∧
    getAssignableUsersDb (Except.error StoreErr.unavailable) cu = [] :=
  ⟨rfl, rfl⟩

/-- Claim C9 counterexample: the forgot-password flow answers 200 in both
    cases but with DIFFERENT message texts depending on whether the email
    is registered, so the two observable responses are not identical. -/
theorem forgot_password_enum_cex :
    (forgotPasswordRoute [authUser] (some "a@b.c") true).status = 200 ∧
    (forgotPasswordRoute [] (some "a@b.c") true).status = 200 ∧
    forgotPasswordRoute [authUser] (some "a@b.c") true ≠
      forgotPasswordRoute [] (some "a@b.c") true := by decide

/-- Claim C9 (amended): the login flow does respond identically (the 400
    Invalid credentials outcome) whether the email is unknown or the
    password does not match; the forgot-password flow returns status 200 in
    both cases (when the email send succeeds) but its message texts differ
    between the two cases. -/
theorem auth_enum_amended (checkPw : String → String → Bool)
    (users : List User) (e pw : String) (he : e ≠ "")
    (h : Option.all (fun u => !(passwordMatches checkPw pw u.password))
        (findByEmail users e) = true) :
    loginRoute checkPw users e pw = LoginResp.invalidCredentials ∧
    loginRoute checkPw [] e pw = LoginResp.invalidCredentials ∧
    (forgotPasswordRoute users (some e) true).status = 200 ∧
    (forgotPasswordRoute [] (some e) true).status = 200 := by
  refine ⟨?_, ?_, ?_, ?_⟩
  · unfold loginRoute
    cases hf : findByEmail users e with
    | none => rfl
    | some u =>
      rw [hf] at h
      have h2 : passwordMatches checkPw pw u.password = false := by
        simpa [Option.all] using h
      simp [h2]
  · rfl
  · unfold forgotPasswordRoute
    cases hf : findByEmail users e with
    | none => simp [he, hf]
    | some u => simp [he, hf]
  · simp [forgotPasswordRoute, findByEmail, he]

/-- Claim C9 witness: a concrete account and a wrong password; the login
    response is the uniform Invalid credentials outcome. -/
theorem auth_enum_amended_witness :
    ("a@b.c" ≠ "") ∧
    Option.all
        (fun u => !(passwordMatches (fun a b => a == b) "wrong" u.password))
        (findByEmail [authUser] "a@b.c") = true ∧
    loginRoute (fun a b => a == b) [authUser] "a@b.c" "wrong" =
      LoginResp.invalidCredentials :=
  ⟨by decide, by decide,
    (auth_enum_amended (fun a b => a == b) [authUser] "a@b.c" "wrong"
        (by decide) (by decide)).1⟩

/-- Claim C10: when the actor has role member, the assignable-users route
    returns exactly the actor record as fetched, with no field exclusion
    (so the stored hashed password is included); for every other actor
    role each returned user has the password field stripped. -/
theorem assignable_users_password_exposure (users : List User)
    (actorId : Nat) (cu : User) (h : findById users actorId = some cu) :
    (cu.role = Role.member →
        listAssignableUsers users actorId = some [cu]) ∧
    (cu.role ≠ Role.member →
        ∀ l, listAssignableUsers users actorId = some l →
          ∀ u ∈ l, u.password = none) := by
  constructor
  · intro hm
    have hres : getAssignableUsers users cu = [cu] := by
      unfold getAssignableUsers getAssignableUsersDb
      rw [hm]
    unfold listAssignableUsers
    rw [h]
    show some (getAssignableUsers users cu) = some [cu]
    rw [hres]
  · intro hne l hl u hu
    unfold listAssignableUsers at hl
    rw [h] at hl
    have hl2 : some (getAssignableUsers users cu) = some l := hl
    obtain rfl : getAssignableUsers users cu = l := Option.some.inj hl2
    unfold getAssignableUsers getAssignableUsersDb at hu
    cases hrole : cu.role with
    | member => exact absurd hrole hne
    | super_admin =>
      rw [hrole] at hu
      exact (mem_activeUsers users (List.mem_filter.mp hu).1).2
    | manager =>
      rw [hrole] at hu
      exact (mem_activeUsers users (List.mem_filter.mp hu).1).2
    | supervisor =>
      rw [hrole] at hu
      exact (mem_activeUsers users (List.mem_filter.mp hu).1).2
    | pending =>
      rw [hrole] at hu
      simp at hu

/-- Claim C10 witness: a concrete member actor with a stored password hash
    receives its own unstripped record. -/
theorem assignable_users_password_exposure_witness :
    findById memStore 9 = some memActor ∧
    memActor.password = some "hash9" ∧
    listAssignableUsers memStore 9 = some [memActor] :=
  ⟨by decide, by decide,
    (assignable_users_password_exposure memStore 9 memActor (by decide)).1
      rfl⟩

end Taskberry
